import Mathlib

/-!
# Verification of the Aligna PR prospecting pipeline

A shallow embedding, in Lean 4, of the core of the Aligna PR prospecting
tool (a TypeScript program): the multi-source search aggregator's URL
deduplication, the six-factor scoring engine, the competitor sentiment
classifier, the article excerpt extraction, and the rate-limited,
cached `EthicalScraper.fetch` path.

Modelling conventions:
* JavaScript strings are modelled as `List Char` (`Str`).  String methods
  (`includes`, `indexOf`, `slice`, `toLowerCase`, ...) are translated to
  executable Lean functions on `List Char`.  `toLowerCase` is modelled by
  `Char.toLower` (ASCII case mapping; the program only compares ASCII
  keyword text).
* JavaScript numbers are modelled as `Int` (all score arithmetic in the
  program is integer arithmetic); date arithmetic keeps the source's
  fractional division by modelling `getMonthsSince` in `ℚ`.
* `Date` values are epoch milliseconds (`Int`); `Date.now()` becomes an
  explicit `now : Int` parameter, and `new Date().getFullYear()` becomes
  an explicit `currentYear : Nat` parameter (calendar arithmetic is not
  re-modelled).
* The handful of regular expressions in the source are translated by
  small, executable matchers specialised to the exact patterns used
  (literal runs, `\s+`, `[:\s]+`, `\d{1,2}`, optional characters,
  word boundaries `\b`).
-/

/-- JavaScript strings, modelled as lists of characters. -/
abbrev Str := List Char

/-- Turn a Lean string literal into the `Str` model. -/
def cs (s : String) : Str := s.data

/-- `String.prototype.toLowerCase` (ASCII case mapping). -/
def toLowerStr (s : Str) : Str := s.map Char.toLower

/-- `String.prototype.includes(needle)`: substring occurrence test. -/
def containsSub : Str → Str → Bool
  | [], needle => needle.isEmpty
  | c :: t, needle => needle.isPrefixOf (c :: t) || containsSub t needle

/-- `String.prototype.indexOf(needle, start)`: index of the first
occurrence of `needle` at position `≥ start`, if any. -/
def findIdxFrom (hay needle : Str) (start : Nat) : Option Nat :=
  ((List.range (hay.length + 1)).filter
    (fun i => decide (start ≤ i) && needle.isPrefixOf (hay.drop i))).head?

/-! ## Aggregator URL deduplication (`src/search/index.ts`) -/

/-- One normalized search result (`SearchResult` in `src/types`). -/
structure SearchResult where
  title : Str
  url : Str
  snippet : Str
  source : Str
deriving DecidableEq

/-- Strip a single trailing slash: `.replace(/\/$/, '')`. -/
def dropTrailingSlash (l : Str) : Str :=
  if l.getLast? = some '/' then l.dropLast else l

/-- Strip an optional leading `www.` (second half of the scheme regex). -/
def stripWww (l : Str) : Str :=
  if (cs "www.").isPrefixOf l then l.drop 4 else l

/-- Strip `^https?:\/\/(www\.)?` — the `www.` is only stripped when a
scheme was present, exactly as in the source regex. -/
def stripSchemeWww (l : Str) : Str :=
  if (cs "https://").isPrefixOf l then stripWww (l.drop 8)
  else if (cs "http://").isPrefixOf l then stripWww (l.drop 7)
  else l

/-- URL normalization used by `deduplicateResults`:
`url.toLowerCase().replace(/\/$/, '').replace(/^https?:\/\/(www\.)?/, '')`. -/
def normalizeUrl (u : Str) : Str :=
  stripSchemeWww (dropTrailingSlash (toLowerStr u))

/-- The `results.filter(...)` loop of `deduplicateResults`, with the
`seen` set made explicit.  An element is kept iff its normalized URL is
not in `seen`; kept elements add their normalized URL to `seen`. -/
def dedupAux (seen : List Str) : List SearchResult → List SearchResult
  | [] => []
  | r :: rs =>
    let n := normalizeUrl r.url
    if n ∈ seen then dedupAux seen rs
    else r :: dedupAux (n :: seen) rs

/-- `deduplicateResults` from `src/search/index.ts`. -/
def deduplicateResults (results : List SearchResult) : List SearchResult :=
  dedupAux [] results

/-- Taken from the claim's wording (spec side, for refinement): keep, for
each normalized URL, only its first occurrence; every element — kept or
dropped — records its normalized URL as seen. -/
def firstSeenFilter (seen : List Str) : List SearchResult → List SearchResult
  | [] => []
  | r :: rs =>
    let n := normalizeUrl r.url
    if n ∈ seen then firstSeenFilter (n :: seen) rs
    else r :: firstSeenFilter (n :: seen) rs

lemma dedupAux_sublist (l : List SearchResult) :
    ∀ seen, (dedupAux seen l).Sublist l := by
  induction l with
  | nil => intro seen; simp [dedupAux]
  | cons r rs ih =>
    intro seen
    by_cases h : normalizeUrl r.url ∈ seen
    · simpa [dedupAux, h] using (ih seen).cons r
    · simpa [dedupAux, h] using (ih (normalizeUrl r.url :: seen)).cons₂ r

lemma dedupAux_idem (l : List SearchResult) :
    ∀ seen, dedupAux seen (dedupAux seen l) = dedupAux seen l := by
  induction l with
  | nil => intro seen; simp [dedupAux]
  | cons r rs ih =>
    intro seen
    by_cases h : normalizeUrl r.url ∈ seen
    · simp [dedupAux, h, ih seen]
    · simp [dedupAux, h, ih (normalizeUrl r.url :: seen)]

lemma dedupAux_eq_firstSeen (l : List SearchResult) :
    ∀ s₁ s₂, (∀ x, x ∈ s₁ ↔ x ∈ s₂) → dedupAux s₁ l = firstSeenFilter s₂ l := by
  induction l with
  | nil => intro s₁ s₂ _; simp [dedupAux, firstSeenFilter]
  | cons r rs ih =>
    intro s₁ s₂ hmem
    by_cases h : normalizeUrl r.url ∈ s₁
    · have h₂ : normalizeUrl r.url ∈ s₂ := (hmem _).mp h
      have hseen : ∀ x, x ∈ s₁ ↔ x ∈ normalizeUrl r.url :: s₂ := by
        intro x
        constructor
        · intro hx; exact List.mem_cons_of_mem _ ((hmem x).mp hx)
        · intro hx
          rcases List.mem_cons.mp hx with hx | hx
          · exact hx ▸ h
          · exact (hmem x).mpr hx
      simp only [dedupAux, firstSeenFilter, h, h₂, if_pos]
      exact ih _ _ hseen
    · have h₂ : ¬ normalizeUrl r.url ∈ s₂ := fun hx => h ((hmem _).mpr hx)
      have hseen : ∀ x, x ∈ normalizeUrl r.url :: s₁ ↔ x ∈ normalizeUrl r.url :: s₂ := by
        intro x; simp [hmem x]
      simp only [dedupAux, firstSeenFilter, h, h₂, if_neg, not_false_iff]
      exact congrArg (r :: ·) (ih _ _ hseen)

/-- **C6.** The Aggregator's URL deduplication is idempotent, returns a
subsequence of its input (first-seen order preserved), and coincides with
the spec-side "keep the first occurrence of each normalized URL" filter. -/
theorem dedupe_idempotent_first_seen (L : List SearchResult) :
    deduplicateResults (deduplicateResults L) = deduplicateResults L ∧
    (deduplicateResults L).Sublist L ∧
    deduplicateResults L = firstSeenFilter [] L := by
  refine ⟨dedupAux_idem L [], dedupAux_sublist L [], ?_⟩
  exact dedupAux_eq_firstSeen L [] [] (fun x => Iff.rfl)

/-! ## Data model (`src/types/index.ts`) -/

/-- `Article` from `src/types`.  Dates are epoch milliseconds; the
`ContentType` union is modelled as a string, matching the string
`switch`/lookup dispatch (with `default` branches) in the scorers. -/
structure Article where
  title : Str
  url : Str
  publicationName : Str
  publishDate : Option Int
  lastUpdated : Option Int
  fullText : Str
  excerpt : Str
  wordCount : Nat
  detectedTopics : List Str
  contentType : Str
  mentionsProducts : Bool
  mentionsCompetitors : List Str
  domain : Str
deriving DecidableEq

/-- `AuthorContact` from `src/types` (optional string fields are
`Option Str`; JavaScript truthiness of `undefined`/`''` is `truthy`). -/
structure AuthorContact where
  name : Str
  bio : Option Str
  title : Option Str
  authorWebsite : Option Str
  linkedInUrl : Option Str
  twitterHandle : Option Str
  githubUsername : Option Str
  publicEmail : Option Str
  contactFormUrl : Option Str
  isFreelance : Bool
  isEditor : Bool
  worksForPublication : Str
deriving DecidableEq

/-- JavaScript truthiness of an optional string (`undefined` and `''`
are falsy). -/
def truthy : Option Str → Bool
  | none => false
  | some s => !s.isEmpty

/-- First-match lookup in an association list keyed by strings (models
`Record<string, T>` property access). -/
def alookup {α : Type} : List (Str × α) → Str → Option α
  | [], _ => none
  | (k, v) :: t, key => if k = key then some v else alookup t key

/-! ## Specialised regex matchers

The updateability scorer uses a handful of regular expressions built
from literal runs, `\s+`, `[:\s]+`, `\d{1,2}` and optional characters.
A pattern element maps an input to the list of possible remainders
after matching a prefix of it (so sequencing backtracks exactly like
the source regexes); `reTest` is `RegExp.test` (match anywhere).  All
these regexes carry the `i` flag and are applied by the source to
already-lowercased text, so the patterns below are spelled lowercase. -/

/-- JavaScript `\s` (ASCII part; the program's texts are ASCII). -/
def isWs (c : Char) : Bool :=
  c = ' ' || c = '\t' || c = '\n' || c = '\r' || c = '\x0b' || c = '\x0c'

/-- A pattern element: possible remainders after matching a prefix. -/
abbrev Pat := Str → List Str

/-- Literal characters. -/
def psLit (s : Str) : Pat := fun t =>
  if s.isPrefixOf t then [t.drop s.length] else []

/-- One-or-more characters of a class (e.g. `[:\s]+`): all non-empty
prefixes of the maximal run. -/
def psClassPlus (p : Char → Bool) : Pat := fun t =>
  (List.range (t.takeWhile p).length).map (fun k => t.drop (k + 1))

/-- `\s+`. -/
def psWsPlus : Pat := psClassPlus isWs

/-- `\d{1,2}`: two digits or one. -/
def psDigits12 : Pat := fun t =>
  (match t with
   | c₁ :: c₂ :: rest => if c₁.isDigit && c₂.isDigit then [rest] else []
   | _ => []) ++
  (match t with
   | c₁ :: rest => if c₁.isDigit then [rest] else []
   | [] => [])

/-- An optional literal character (e.g. `,?` or `s?`). -/
def psOptChar (c : Char) : Pat := fun t =>
  (match t with
   | c₁ :: rest => if c₁ = c then [rest] else []
   | [] => []) ++ [t]

/-- Alternation of literals (e.g. the month-name group). -/
def psAltLit (ss : List Str) : Pat := fun t => (ss.map (fun s => psLit s t)).join

/-- Sequencing of pattern elements. -/
def psSeq : List Pat → Pat
  | [] => fun t => [t]
  | p :: ps => fun t => ((p t).map (psSeq ps)).join

/-- `RegExp.test`: the sequence matches starting at some position. -/
def reTest (ps : List Pat) (t : Str) : Bool :=
  (List.range (t.length + 1)).any (fun i => !(psSeq ps (t.drop i)).isEmpty)

/-! ## Updateability scoring (`src/scoring/updateability-scorer.ts`) -/

/-- Milliseconds per month as used by `getMonthsSince`
(`1000 * 60 * 60 * 24 * 30`). -/
def msPerMonth : ℚ := 1000 * 60 * 60 * 24 * 30

/-- `getMonthsSince`: fractional months between `date` and `now`
(both in epoch milliseconds). -/
def getMonthsSince (now date : Int) : ℚ := ((now - date : Int) : ℚ) / msPerMonth

/-- The month names of the `updated: <month> <day>, <year>` regex. -/
def monthNames : List Str :=
  [cs "january", cs "february", cs "march", cs "april", cs "may", cs "june",
   cs "july", cs "august", cs "september", cs "october", cs "november", cs "december"]

/-- `/last\s+updated/i`. -/
def lastUpdatedPat : List Pat := [psLit (cs "last"), psWsPlus, psLit (cs "updated")]

/-- `` `updated[:\s]+(${months.join('|')})\s+\d{1,2},?\s+${year}` ``. -/
def updatedDatePat (year : Nat) : List Pat :=
  [psLit (cs "updated"), psClassPlus (fun c => c = ':' || isWs c), psAltLit monthNames,
   psWsPlus, psDigits12, psOptChar ',', psWsPlus, psLit (cs (toString year))]

/-- The nine `updateFriendlyPatterns` regexes. -/
def updateFriendlyPats : List (List Pat) :=
  [[psLit (cs "we'll"), psWsPlus, psLit (cs "update"), psWsPlus, psLit (cs "this")],
   [psLit (cs "we"), psWsPlus, psLit (cs "will"), psWsPlus, psLit (cs "keep"), psWsPlus,
    psLit (cs "this"), psWsPlus, psLit (cs "updated")],
   [psLit (cs "periodically"), psWsPlus, psLit (cs "updated")],
   [psLit (cs "regularly"), psWsPlus, psLit (cs "updated")],
   [psLit (cs "let"), psWsPlus, psLit (cs "us"), psWsPlus, psLit (cs "know"), psWsPlus,
    psLit (cs "if"), psWsPlus, psLit (cs "we"), psWsPlus, psLit (cs "missed")],
   [psLit (cs "suggest"), psWsPlus, psLit (cs "a"), psWsPlus, psLit (cs "tool")],
   [psLit (cs "submit"), psWsPlus, psLit (cs "a"), psWsPlus, psLit (cs "tool")],
   [psLit (cs "leave"), psWsPlus, psLit (cs "a"), psWsPlus, psLit (cs "comment")],
   [psLit (cs "share"), psWsPlus, psLit (cs "your"), psWsPlus, psLit (cs "favorite"),
    psOptChar 's']]

/-- `scoreUpdateSignals` (0-10): explicit "last updated" text (+5),
a recent-year dated update phrase (+5), update-friendly language (+3),
capped at 10.  `currentYear` stands for `new Date().getFullYear()`. -/
def scoreUpdateSignals (currentYear : Nat) (text : Str) : Int :=
  let s₁ : Int := if reTest lastUpdatedPat text then 5 else 0
  let s₂ : Int :=
    if [currentYear, currentYear - 1].any (fun y => reTest (updatedDatePat y) text)
    then 5 else 0
  let s₃ : Int := if updateFriendlyPats.any (fun p => reTest p text) then 3 else 0
  min (s₁ + s₂ + s₃) 10

/-- `scoreContentTypeForUpdate` (the `switch` with `default: 3`). -/
def scoreContentTypeForUpdate (ct : Str) : Int :=
  if ct = cs "comparison" then 9
  else if ct = cs "listicle" then 8
  else if ct = cs "guide" then 7
  else if ct = cs "tutorial" then 4
  else if ct = cs "case-study" then 2
  else if ct = cs "news" then 1
  else if ct = cs "opinion" then 2
  else 3

/-- `scoreFreshness`: bonus by months since last touch
(`lastUpdated || publishDate`; `Date` objects are always truthy). -/
def scoreFreshness (now : Int) (publishDate lastUpdated : Option Int) : Int :=
  match lastUpdated <|> publishDate with
  | none => 0
  | some d =>
    let m := getMonthsSince now d
    if m < 3 then 5
    else if m < 6 then 4
    else if m < 12 then 3
    else if m < 18 then 2
    else if m < 24 then 1
    else 0

/-- `scoreUpdateability` (0-20): update signals + content-type bonus
+ freshness, −10 penalty (floored at 0) for > 36-month-old content with
no recorded update, then capped at 20. -/
def scoreUpdateability (now : Int) (currentYear : Nat) (a : Article) : Int :=
  let text := toLowerStr a.fullText
  let base := scoreUpdateSignals currentYear text
    + scoreContentTypeForUpdate a.contentType
    + scoreFreshness now a.publishDate a.lastUpdated
  let afterPenalty :=
    match a.publishDate with
    | some d =>
      if 36 < getMonthsSince now d ∧ a.lastUpdated = none then max 0 (base - 10) else base
    | none => base
  min afterPenalty 20

/-! ## Topical relevance scoring (`src/scoring/relevance-scorer.ts`) -/

/-- Perfect match keywords (25-30 points if found). -/
def PERFECT_KEYWORDS : List Str :=
  [cs "conversational ai interview", cs "voice ai recruiting", cs "live ai phone screen",
   cs "real-time ai interview", cs "livekit", cs "ai phone screening",
   cs "voice-first recruiting", cs "live voice interview", cs "phone ai interview",
   cs "conversational recruiter"]

/-- Strong match keywords (18-24 points if found). -/
def STRONG_KEYWORDS : List Str :=
  [cs "candidate screening ai", cs "interview automation", cs "hirevue alternative",
   cs "async video alternative", cs "ai recruiter", cs "automated phone screen",
   cs "phone screen automation", cs "video interview alternative", cs "ai-powered screening",
   cs "intelligent recruiting", cs "ai assessment tool"]

/-- Moderate match keywords (12-17 points). -/
def MODERATE_KEYWORDS : List Str :=
  [cs "recruiting automation", cs "hr tech", cs "talent acquisition",
   cs "applicant tracking", cs "candidate assessment", cs "interview platform",
   cs "hiring automation", cs "recruiting tool", cs "technical recruiting"]

/-- One keyword-tier `for` loop of `scoreTopicalRelevance`: a title match
takes `titleVal` and breaks; a body match takes `bodyVal` and continues. -/
def keywordLoop (title text : Str) (titleVal bodyVal : Int) :
    List Str → Int → Int
  | [], s => s
  | k :: ks, s =>
    if containsSub title k then max s titleVal
    else keywordLoop title text titleVal bodyVal ks
      (if containsSub text k then max s bodyVal else s)

/-- The four topic names counted as relevant for the breadth bonus. -/
def relevantTopicNames : List Str :=
  [cs "voice-ai", cs "candidate-screening", cs "hr-tech", cs "interview-automation"]

/-- The `detectedTopics` fallback chain of `scoreTopicalRelevance`. -/
def topicFallback (topics : List Str) (s : Int) : Int :=
  if cs "voice-ai" ∈ topics then max s 15
  else if cs "interview-automation" ∈ topics then max s 13
  else if cs "candidate-screening" ∈ topics then max s 12
  else if cs "hr-tech" ∈ topics then max s 8
  else s

/-- The breadth bonus of `scoreTopicalRelevance`: +3 for ≥ 3 relevant
topics, +2 for ≥ 2. -/
def topicBreadthBonus (topics : List Str) (s : Int) : Int :=
  let relevantTopics := topics.filter (fun t => decide (t ∈ relevantTopicNames))
  if 3 ≤ relevantTopics.length then s + 3
  else if 2 ≤ relevantTopics.length then s + 2
  else s

/-- `scoreTopicalRelevance` (0-30). -/
def scoreTopicalRelevance (a : Article) : Int :=
  let text := toLowerStr a.fullText
  let title := toLowerStr a.title
  let s₀ := keywordLoop title text 30 25 PERFECT_KEYWORDS 0
  if 25 ≤ s₀ then min s₀ 30 else
  let s₁ := keywordLoop title text 22 18 STRONG_KEYWORDS s₀
  if 18 ≤ s₁ then min s₁ 30 else
  let s₂ := keywordLoop title text 15 12 MODERATE_KEYWORDS s₁
  if 12 ≤ s₂ then min s₂ 30 else
  min (topicBreadthBonus a.detectedTopics (topicFallback a.detectedTopics s₂)) 30

/-! ## Article quality scoring (`src/scoring/quality-scorer.ts`,
using `SCORING_CONFIG` from `src/config`) -/

/-- `SCORING_CONFIG.wordCountThresholds`. -/
def wordCountThresholds : List (Nat × Int) :=
  [(2500, 8), (1800, 7), (1500, 6), (1000, 5), (800, 4), (500, 3), (0, 2)]

/-- The `for` loop of `scoreWordCount`: first threshold with
`wordCount >= min` wins; fallback 2. -/
def scoreWordCountLoop : List (Nat × Int) → Nat → Int
  | [], _ => 2
  | (m, p) :: t, wc => if m ≤ wc then p else scoreWordCountLoop t wc

/-- `scoreWordCount` (0-8). -/
def scoreWordCount (wc : Nat) : Int := scoreWordCountLoop wordCountThresholds wc

/-- `SCORING_CONFIG.contentTypeScores` (with `default: 3`). -/
def contentTypeScores : List (Str × Int) :=
  [(cs "guide", 7), (cs "comparison", 7), (cs "listicle", 6), (cs "case-study", 5),
   (cs "tutorial", 5), (cs "news", 4), (cs "opinion", 3)]

/-- `scoreContentType` via the config record (`?? default`). -/
def scoreContentTypeQ (ct : Str) : Int := (alookup contentTypeScores ct).getD 3

/-- `scoreArticleQuality` (0-20). -/
def scoreArticleQuality (a : Article) : Int :=
  min (scoreWordCount a.wordCount + scoreContentTypeQ a.contentType +
    (if a.mentionsProducts then 5 else 0)) 20

/-! ## Author credibility, competitive gap, reachability
(`src/scoring/index.ts`) -/

/-- The `majorPubs` list of `scoreAuthorCredibility`. -/
def majorPubs : List Str :=
  [cs "techcrunch", cs "medium", cs "dev.to", cs "hackernews", cs "forbes",
   cs "venture beat", cs "hrtechnologist"]

/-- `scoreAuthorCredibility` (0-15): role base (freelance 8 / editor 4 /
staff 6), bio/title expertise tier (4/3/2, first match wins),
publication bonus (3 major / 1 otherwise), capped at 15. -/
def scoreAuthorCredibility (author : AuthorContact) (article : Article) : Int :=
  let base : Int := if author.isFreelance then 8 else if author.isEditor then 4 else 6
  let bio := toLowerStr (author.bio.getD [])
  let title := toLowerStr (author.title.getD [])
  let expertise : Int :=
    if containsSub bio (cs "hr tech") || containsSub bio (cs "recruiting") ||
        containsSub bio (cs "talent") || containsSub title (cs "hr") ||
        containsSub title (cs "recruiting") then 4
    else if containsSub bio (cs "tech") || containsSub bio (cs "ai") ||
        containsSub bio (cs "software") || containsSub title (cs "tech") then 3
    else if containsSub bio (cs "writer") || containsSub bio (cs "journalist") ||
        containsSub bio (cs "editor") then 2
    else 0
  let pub : Int :=
    if majorPubs.any (fun p => containsSub (toLowerStr article.publicationName) p)
    then 3 else 1
  min (base + expertise + pub) 15

/-- `ALIGNA.competitors` from `src/config`. -/
def ALIGNA_competitors : List Str :=
  [cs "hirevue", cs "modern hire", cs "modernhire", cs "karat", cs "willo",
   cs "spark hire", cs "sparkhire", cs "myinterview", cs "vidcruiter", cs "hireflix"]

/-- `scoreCompetitiveGap` (0-10): the product-named override first, then
competitor mention (10), comparison content (8), generic product mention
(5), listicle (4), baseline (2). -/
def scoreCompetitiveGap (a : Article) : Int :=
  let text := toLowerStr a.fullText
  if containsSub text (cs "aligna") || containsSub text (cs "align-a") then 0
  else if ALIGNA_competitors.any (fun c => containsSub text (toLowerStr c)) then 10
  else if a.contentType = cs "comparison" then 8
  else if a.mentionsProducts then 5
  else if a.contentType = cs "listicle" then 4
  else 2

/-- `scoreReachability` (0-5): best available contact channel only. -/
def scoreReachability (author : AuthorContact) : Int :=
  if truthy author.publicEmail then 5
  else if truthy author.contactFormUrl then 4
  else if truthy author.linkedInUrl then 3
  else if truthy author.twitterHandle then 2
  else 0

/-- `ScoringFactors` from `src/types`. -/
structure ScoringFactors where
  topicalRelevance : Int
  articleQuality : Int
  updateability : Int
  authorCredibility : Int
  competitiveGap : Int
  reachability : Int
deriving DecidableEq

/-- The `{ score, breakdown }` pair returned by `calculateScore`. -/
structure ScoreResult where
  score : Int
  breakdown : ScoringFactors
deriving DecidableEq

/-- `calculateScore`: the six sub-scores and their sum
(`Object.values(breakdown).reduce((sum, val) => sum + val, 0)`). -/
def calculateScore (now : Int) (currentYear : Nat)
    (article : Article) (author : AuthorContact) : ScoreResult :=
  let breakdown : ScoringFactors :=
    { topicalRelevance := scoreTopicalRelevance article
      articleQuality := scoreArticleQuality article
      updateability := scoreUpdateability now currentYear article
      authorCredibility := scoreAuthorCredibility author article
      competitiveGap := scoreCompetitiveGap article
      reachability := scoreReachability author }
  { score := breakdown.topicalRelevance + breakdown.articleQuality +
      breakdown.updateability + breakdown.authorCredibility +
      breakdown.competitiveGap + breakdown.reachability
    breakdown := breakdown }

/-! ## Bounds of the six sub-scorers -/

lemma keywordLoop_ge (title text : Str) (tv bv : Int) :
    ∀ ks s, s ≤ keywordLoop title text tv bv ks s := by
  intro ks
  induction ks with
  | nil => intro s; exact le_refl s
  | cons k ks ih =>
    intro s
    by_cases h : containsSub title k
    · simp [keywordLoop, h, le_max_left]
    · simp only [keywordLoop, h, if_neg, Bool.false_eq_true, not_false_iff]
      refine le_trans ?_ (ih _)
      by_cases h' : containsSub text k <;> simp [h', le_max_left]

lemma keywordLoop_le (title text : Str) (tv bv M : Int)
    (htv : tv ≤ M) (hbv : bv ≤ M) :
    ∀ ks s, s ≤ M → keywordLoop title text tv bv ks s ≤ M := by
  intro ks
  induction ks with
  | nil => intro s hs; exact hs
  | cons k ks ih =>
    intro s hs
    by_cases h : containsSub title k
    · simpa [keywordLoop, h] using max_le hs htv
    · simp only [keywordLoop, h, if_neg, Bool.false_eq_true, not_false_iff]
      refine ih _ ?_
      by_cases h' : containsSub text k <;> simp [h', max_le hs hbv, hs]

lemma topicFallback_ge (topics : List Str) (s : Int) : s ≤ topicFallback topics s := by
  unfold topicFallback
  split_ifs <;> simp [le_max_left]

lemma topicBreadthBonus_ge (topics : List Str) (s : Int) :
    s ≤ topicBreadthBonus topics s := by
  unfold topicBreadthBonus
  dsimp only
  split_ifs <;> omega

lemma scoreTopicalRelevance_bounds (a : Article) :
    0 ≤ scoreTopicalRelevance a ∧ scoreTopicalRelevance a ≤ 30 := by
  have h₀ : (0 : Int) ≤ keywordLoop (toLowerStr a.title) (toLowerStr a.fullText)
      30 25 PERFECT_KEYWORDS 0 :=
    keywordLoop_ge _ _ _ _ _ _
  have h₁ := keywordLoop_ge (toLowerStr a.title) (toLowerStr a.fullText) 22 18
    STRONG_KEYWORDS (keywordLoop (toLowerStr a.title) (toLowerStr a.fullText)
      30 25 PERFECT_KEYWORDS 0)
  have h₂ := keywordLoop_ge (toLowerStr a.title) (toLowerStr a.fullText) 15 12
    MODERATE_KEYWORDS (keywordLoop (toLowerStr a.title) (toLowerStr a.fullText) 22 18
      STRONG_KEYWORDS (keywordLoop (toLowerStr a.title) (toLowerStr a.fullText)
        30 25 PERFECT_KEYWORDS 0))
  have h₃ := topicFallback_ge a.detectedTopics
    (keywordLoop (toLowerStr a.title) (toLowerStr a.fullText) 15 12
      MODERATE_KEYWORDS (keywordLoop (toLowerStr a.title) (toLowerStr a.fullText) 22 18
        STRONG_KEYWORDS (keywordLoop (toLowerStr a.title) (toLowerStr a.fullText)
          30 25 PERFECT_KEYWORDS 0)))
  have h₄ := topicBreadthBonus_ge a.detectedTopics
    (topicFallback a.detectedTopics
      (keywordLoop (toLowerStr a.title) (toLowerStr a.fullText) 15 12
        MODERATE_KEYWORDS (keywordLoop (toLowerStr a.title) (toLowerStr a.fullText) 22 18
          STRONG_KEYWORDS (keywordLoop (toLowerStr a.title) (toLowerStr a.fullText)
            30 25 PERFECT_KEYWORDS 0))))
  unfold scoreTopicalRelevance
  dsimp only
  split_ifs <;>
    exact ⟨le_min (by omega) (by norm_num), min_le_right _ _⟩

lemma scoreWordCount_bounds (wc : Nat) :
    2 ≤ scoreWordCount wc ∧ scoreWordCount wc ≤ 8 := by
  unfold scoreWordCount wordCountThresholds
  simp only [scoreWordCountLoop]
  split_ifs <;> norm_num

lemma scoreContentTypeQ_bounds (ct : Str) :
    3 ≤ scoreContentTypeQ ct ∧ scoreContentTypeQ ct ≤ 7 := by
  unfold scoreContentTypeQ contentTypeScores
  simp only [alookup]
  split_ifs <;> norm_num [Option.getD_some, Option.getD_none]

lemma scoreArticleQuality_bounds (a : Article) :
    0 ≤ scoreArticleQuality a ∧ scoreArticleQuality a ≤ 20 := by
  have h₁ := scoreWordCount_bounds a.wordCount
  have h₂ := scoreContentTypeQ_bounds a.contentType
  unfold scoreArticleQuality
  constructor
  · refine le_min ?_ (by norm_num)
    split_ifs <;> omega
  · exact min_le_right _ _

lemma scoreUpdateSignals_bounds (year : Nat) (text : Str) :
    0 ≤ scoreUpdateSignals year text ∧ scoreUpdateSignals year text ≤ 10 := by
  unfold scoreUpdateSignals
  refine ⟨le_min ?_ (by norm_num), min_le_right _ _⟩
  split_ifs <;> norm_num

lemma scoreContentTypeForUpdate_bounds (ct : Str) :
    1 ≤ scoreContentTypeForUpdate ct ∧ scoreContentTypeForUpdate ct ≤ 9 := by
  unfold scoreContentTypeForUpdate
  split_ifs <;> norm_num

lemma scoreFreshness_bounds (now : Int) (pd lu : Option Int) :
    0 ≤ scoreFreshness now pd lu ∧ scoreFreshness now pd lu ≤ 5 := by
  unfold scoreFreshness
  rcases href : lu.orElse (fun _ => pd) with _ | d
  · rw [show (lu <|> pd) = none from href]
    norm_num
  · rw [show (lu <|> pd) = some d from href]
    dsimp only
    split_ifs <;> norm_num

lemma scoreUpdateability_bounds (now : Int) (year : Nat) (a : Article) :
    0 ≤ scoreUpdateability now year a ∧ scoreUpdateability now year a ≤ 20 := by
  have h₁ := scoreUpdateSignals_bounds year (toLowerStr a.fullText)
  have h₂ := scoreContentTypeForUpdate_bounds a.contentType
  unfold scoreUpdateability
  refine ⟨le_min ?_ (by norm_num), min_le_right _ _⟩
  cases hpd : a.publishDate with
  | none =>
    have h₃ := scoreFreshness_bounds now none a.lastUpdated
    dsimp only
    omega
  | some d =>
    have h₃ := scoreFreshness_bounds now (some d) a.lastUpdated
    dsimp only
    split_ifs <;> omega

lemma scoreAuthorCredibility_bounds (author : AuthorContact) (article : Article) :
    5 ≤ scoreAuthorCredibility author article ∧
    scoreAuthorCredibility author article ≤ 15 := by
  unfold scoreAuthorCredibility
  constructor
  · refine le_min ?_ (by norm_num)
    split_ifs <;> norm_num
  · exact min_le_right _ _

lemma scoreCompetitiveGap_bounds (a : Article) :
    0 ≤ scoreCompetitiveGap a ∧ scoreCompetitiveGap a ≤ 10 := by
  unfold scoreCompetitiveGap
  dsimp only
  split_ifs <;> norm_num

lemma scoreReachability_bounds (author : AuthorContact) :
    0 ≤ scoreReachability author ∧ scoreReachability author ≤ 5 := by
  unfold scoreReachability
  split_ifs <;> norm_num

/-! ## Claims C1, C2, C9, C3 -/

/-- **C1.** For every article and author pair, `calculateScore` returns a
breakdown whose total equals the sum of its six sub-score fields, each
sub-score lies within its stated cap (30, 20, 20, 15, 10, 5), and the
total lies in `[0, 100]`. -/
theorem calculateScore_total_and_bounds (now : Int) (currentYear : Nat)
    (article : Article) (author : AuthorContact) :
    (calculateScore now currentYear article author).score =
      (calculateScore now currentYear article author).breakdown.topicalRelevance +
      (calculateScore now currentYear article author).breakdown.articleQuality +
      (calculateScore now currentYear article author).breakdown.updateability +
      (calculateScore now currentYear article author).breakdown.authorCredibility +
      (calculateScore now currentYear article author).breakdown.competitiveGap +
      (calculateScore now currentYear article author).breakdown.reachability ∧
    0 ≤ (calculateScore now currentYear article author).breakdown.topicalRelevance ∧
    (calculateScore now currentYear article author).breakdown.topicalRelevance ≤ 30 ∧
    0 ≤ (calculateScore now currentYear article author).breakdown.articleQuality ∧
    (calculateScore now currentYear article author).breakdown.articleQuality ≤ 20 ∧
    0 ≤ (calculateScore now currentYear article author).breakdown.updateability ∧
    (calculateScore now currentYear article author).breakdown.updateability ≤ 20 ∧
    0 ≤ (calculateScore now currentYear article author).breakdown.authorCredibility ∧
    (calculateScore now currentYear article author).breakdown.authorCredibility ≤ 15 ∧
    0 ≤ (calculateScore now currentYear article author).breakdown.competitiveGap ∧
    (calculateScore now currentYear article author).breakdown.competitiveGap ≤ 10 ∧
    0 ≤ (calculateScore now currentYear article author).breakdown.reachability ∧
    (calculateScore now currentYear article author).breakdown.reachability ≤ 5 ∧
    0 ≤ (calculateScore now currentYear article author).score ∧
    (calculateScore now currentYear article author).score ≤ 100 := by
  obtain ⟨ha, ha'⟩ := scoreTopicalRelevance_bounds article
  obtain ⟨hb, hb'⟩ := scoreArticleQuality_bounds article
  obtain ⟨hc, hc'⟩ := scoreUpdateability_bounds now currentYear article
  obtain ⟨hd, hd'⟩ := scoreAuthorCredibility_bounds author article
  obtain ⟨he, he'⟩ := scoreCompetitiveGap_bounds article
  obtain ⟨hf, hf'⟩ := scoreReachability_bounds author
  unfold calculateScore
  dsimp only
  exact ⟨rfl, ha, ha', hb, hb', hc, hc', by omega, hd', he, he', hf, hf',
    by omega, by omega⟩

/-- **C9.** `scoreAuthorCredibility` always lies in `[5, 15]`: the role
base is at least 4 (editor case) and the publication bonus at least 1,
so the sub-score never goes below 5 despite the declared 0-15 range. -/
theorem authorCredibility_never_below_five (author : AuthorContact) (article : Article) :
    5 ≤ scoreAuthorCredibility author article ∧
    scoreAuthorCredibility author article ≤ 15 :=
  scoreAuthorCredibility_bounds author article

/-- **C2.** If the article's body text contains the product's own name
(`aligna`, case-insensitively), `scoreCompetitiveGap` returns exactly 0,
regardless of competitor mentions, content type, or generic product
mentions — the override is evaluated before every other rule. -/
theorem competitiveGap_product_named_zero (a : Article)
    (h : containsSub (toLowerStr a.fullText) (cs "aligna") = true) :
    scoreCompetitiveGap a = 0 := by
  simp [scoreCompetitiveGap, h]

/-- A concrete article naming both HireVue and Aligna, of comparison
type, with generic product mentions. -/
def wArticleC2 : Article :=
  { title := cs "Top video interview platforms"
    url := cs "https://example.com/tools"
    publicationName := cs "Example Blog"
    publishDate := none
    lastUpdated := none
    fullText := cs "HireVue and Aligna are recruiting tools"
    excerpt := cs ""
    wordCount := 7
    detectedTopics := []
    contentType := cs "comparison"
    mentionsProducts := true
    mentionsCompetitors := [cs "hirevue"]
    domain := cs "example.com" }

/-- Witness for C2: the override fires on a concrete article despite a
competitor mention, comparison type, and product mentions. -/
theorem competitiveGap_product_named_zero_witness :
    containsSub (toLowerStr wArticleC2.fullText) (cs "aligna") = true ∧
    scoreCompetitiveGap wArticleC2 = 0 :=
  ⟨by decide, competitiveGap_product_named_zero wArticleC2 (by decide)⟩

/-- The C3 scenario article: `lastUpdated` null, published 40 months
before `now`, listicle, body with no update signals. -/
def wArticleC3 : Article :=
  { title := cs "Ten recruiting tools"
    url := cs "https://example.com/old-list"
    publicationName := cs "Example Blog"
    publishDate := some 0
    lastUpdated := none
    fullText := cs "a plain old list of tools"
    excerpt := cs ""
    wordCount := 6
    detectedTopics := []
    contentType := cs "listicle"
    mentionsProducts := false
    mentionsCompetitors := []
    domain := cs "example.com" }

lemma scoreFreshness_old (now d : Int) (hm : 36 < getMonthsSince now d) :
    scoreFreshness now (some d) none = 0 := by
  unfold scoreFreshness
  rw [show ((none : Option Int) <|> some d) = some d from rfl]
  dsimp only
  split_ifs <;> first | rfl | linarith

/-- **C3.** For articles older than 36 months with no recorded update,
`scoreUpdateability` equals
`max 0 (min (signals + typeBonus + freshness) 20 - 10)` — the penalty
cannot push the result below 0 nor interact with the 20-cap — and in
particular the scenario article (null `lastUpdated`, published 40 months
ago, listicle) scores 0: the penalty overrides the listicle bonus. -/
theorem updateability_penalty_formula :
    (∀ (now : Int) (year : Nat) (a : Article) (d : Int),
        a.publishDate = some d → a.lastUpdated = none →
        36 < getMonthsSince now d →
        scoreUpdateability now year a =
          max 0 (min (scoreUpdateSignals year (toLowerStr a.fullText) +
            scoreContentTypeForUpdate a.contentType +
            scoreFreshness now a.publishDate a.lastUpdated) 20 - 10)) ∧
    scoreUpdateability (40 * 2592000000) 2026 wArticleC3 = 0 := by
  have main : ∀ (now : Int) (year : Nat) (a : Article) (d : Int),
      a.publishDate = some d → a.lastUpdated = none →
      36 < getMonthsSince now d →
      scoreUpdateability now year a =
        max 0 (min (scoreUpdateSignals year (toLowerStr a.fullText) +
          scoreContentTypeForUpdate a.contentType +
          scoreFreshness now a.publishDate a.lastUpdated) 20 - 10) := by
    intro now year a d hpd hlu hm
    have h₁ := scoreUpdateSignals_bounds year (toLowerStr a.fullText)
    have h₂ := scoreContentTypeForUpdate_bounds a.contentType
    have hfresh := scoreFreshness_old now d hm
    unfold scoreUpdateability
    rw [hpd, hlu]
    dsimp only
    rw [if_pos ⟨hm, rfl⟩, hfresh]
    omega
  refine ⟨main, ?_⟩
  have hm : getMonthsSince (40 * 2592000000) 0 = 40 := by
    norm_num [getMonthsSince, msPerMonth]
  have h36 : (36 : ℚ) < getMonthsSince (40 * 2592000000) 0 := by rw [hm]; norm_num
  have := main (40 * 2592000000) 2026 wArticleC3 0 rfl rfl h36
  rw [this]
  have hsig : scoreUpdateSignals 2026 (toLowerStr wArticleC3.fullText) = 0 := by decide
  have hct : scoreContentTypeForUpdate wArticleC3.contentType = 8 := by decide
  have hfr : scoreFreshness (40 * 2592000000) wArticleC3.publishDate wArticleC3.lastUpdated = 0 :=
    scoreFreshness_old (40 * 2592000000) 0 h36
  rw [hsig, hct, hfr]
  decide

/-- Witness for C3: the penalty-formula equation instantiated at the
scenario article. -/
theorem updateability_penalty_formula_witness :
    scoreUpdateability (40 * 2592000000) 2026 wArticleC3 =
      max 0 (min (scoreUpdateSignals 2026 (toLowerStr wArticleC3.fullText) +
        scoreContentTypeForUpdate wArticleC3.contentType +
        scoreFreshness (40 * 2592000000) wArticleC3.publishDate
          wArticleC3.lastUpdated) 20 - 10) :=
  updateability_penalty_formula.1 (40 * 2592000000) 2026 wArticleC3 0 rfl rfl
    (by norm_num [getMonthsSince, msPerMonth])

/-! ## Excerpt extraction (`src/search/parsers/author-extractor.ts`,
article-extractor part: `extractExcerpt`) -/

/-- `text.replace(/\s+/g, ' ')`: each maximal whitespace run becomes a
single space (`prevWs` tracks whether we are inside a run). -/
def collapseWsAux (prevWs : Bool) : Str → Str
  | [] => []
  | c :: t =>
    if isWs c then
      (if prevWs then collapseWsAux true t else ' ' :: collapseWsAux true t)
    else c :: collapseWsAux false t

/-- `String.prototype.trim` (ASCII whitespace). -/
def trimWs (s : Str) : Str :=
  ((s.dropWhile isWs).reverse.dropWhile isWs).reverse

/-- `extractExcerpt`: collapse whitespace and trim; return the cleaned
text when it is at most 200 characters, else its first 197 characters
followed by `...`. -/
def extractExcerpt (text : Str) : Str :=
  let cleaned := trimWs (collapseWsAux false text)
  if cleaned.length ≤ 200 then cleaned
  else cleaned.take 197 ++ cs "..."

lemma take_isPrefixOf (l : Str) : ∀ n : Nat, ((l.take n).isPrefixOf l) = true := by
  induction l with
  | nil => intro n; simp [List.isPrefixOf]
  | cons c t ih =>
    intro n
    cases n with
    | zero => simp [List.isPrefixOf]
    | succ m => simp [List.isPrefixOf, ih m]

set_option maxRecDepth 4000 in
/-- **C4 counterexample.** For a 201-character body with no whitespace,
the produced excerpt (`197 chars + "..."`) is not a prefix of the body. -/
theorem excerpt_not_prefix_counterexample :
    ¬ ((extractExcerpt (List.replicate 201 'a')).isPrefixOf
        (List.replicate 201 'a') = true) := by
  decide

/-- **C4 (amended).** The excerpt is at most 200 characters; up to the
`...` truncation marker it is a prefix of the whitespace-collapsed,
trimmed body text; and it is a prefix of the body text itself whenever
the body is already whitespace-normalized and at most 200 characters. -/
theorem excerpt_bounded_up_to_marker (t : Str) :
    (extractExcerpt t).length ≤ 200 ∧
    (((extractExcerpt t).take 197).isPrefixOf (trimWs (collapseWsAux false t))) = true ∧
    (trimWs (collapseWsAux false t) = t → t.length ≤ 200 →
      ((extractExcerpt t).isPrefixOf t) = true) := by
  unfold extractExcerpt
  dsimp only
  by_cases h : (trimWs (collapseWsAux false t)).length ≤ 200
  · rw [if_pos h]
    refine ⟨h, ?_, ?_⟩
    · exact take_isPrefixOf _ 197
    · intro heq _
      rw [heq]
      have htl := take_isPrefixOf t t.length
      rw [List.take_length] at htl
      exact htl
  · rw [if_neg h]
    have hlen : (trimWs (collapseWsAux false t)).take 197 =
        ((trimWs (collapseWsAux false t)).take 197 ++ cs "...").take 197 := by
      rw [List.take_append_eq_append_take]
      have h197 : ((trimWs (collapseWsAux false t)).take 197).length = 197 := by
        rw [List.length_take]
        omega
      rw [List.take_take, h197]
      simp
    refine ⟨?_, ?_, ?_⟩
    · rw [List.length_append, List.length_take]
      have : (cs "...").length = 3 := by decide
      omega
    · rw [← hlen]
      exact take_isPrefixOf _ 197
    · intro heq hle
      rw [heq] at h
      omega

/-- Witness for the amended C4: a short, already-normalized body text
whose excerpt is a genuine prefix of it. -/
theorem excerpt_bounded_witness :
    ((extractExcerpt (cs "short text")).isPrefixOf (cs "short text")) = true :=
  (excerpt_bounded_up_to_marker (cs "short text")).2.2 (by decide) (by decide)

/-! ## Competitor sentiment analysis (`src/outreach/competitor-sentiment.ts`) -/

inductive Sentiment | negative | neutral | positive | mixed
deriving DecidableEq

inductive Confidence | high | medium | low
deriving DecidableEq

/-- `SentimentAspect`. -/
structure SentimentAspect where
  aspect : Str
  sentiment : Sentiment
  keywords : List Str
  quote : Option Str
deriving DecidableEq

/-- `CompetitorSentimentAnalysis`. -/
structure CompetitorSentimentAnalysis where
  competitor : Str
  mentioned : Bool
  sentiment : Sentiment
  aspects : List SentimentAspect
  gapOpportunity : Str
  positioningAngle : Str
  confidence : Confidence
deriving DecidableEq

/-- `NEGATIVE_KEYWORDS`, aspect by aspect, in source order. -/
def NEGATIVE_KEYWORDS : List (Str × List Str) :=
  [(cs "cost",
    [cs "expensive", cs "costly", cs "overpriced", cs "pricey", cs "high cost",
     cs "not affordable", cs "budget", cs "pricing concern", cs "price tag",
     cs "cost prohibitive", cs "enterprise pricing"]),
   (cs "experience",
    [cs "impersonal", cs "cold", cs "robotic", cs "awkward", cs "uncomfortable",
     cs "stressful", cs "intimidating", cs "nerve-wracking", cs "anxiety", cs "anxious",
     cs "unnatural", cs "weird", cs "strange", cs "off-putting", cs "frustrating",
     cs "annoying", cs "tedious"]),
   (cs "usability",
    [cs "clunky", cs "confusing", cs "difficult", cs "complicated", cs "hard to use",
     cs "unintuitive", cs "buggy", cs "glitchy", cs "slow", cs "unreliable",
     cs "crashes", cs "technical issues", cs "poor ux", cs "bad interface",
     cs "outdated"]),
   (cs "effectiveness",
    [cs "ineffective", cs "doesn't work", cs "failed", cs "poor results",
     cs "inaccurate", cs "unreliable", cs "misses", cs "false positive",
     cs "false negative", cs "bias", cs "biased", cs "unfair", cs "discriminatory"]),
   (cs "support",
    [cs "poor support", cs "no support", cs "unresponsive", cs "slow response",
     cs "bad customer service", cs "lack of documentation", cs "hard to get help"]),
   (cs "limitations",
    [cs "limited", cs "lacks", cs "missing", cs "doesn't have", cs "no integration",
     cs "can't", cs "unable to", cs "restricted", cs "basic", cs "bare bones"])]

/-- `POSITIVE_KEYWORDS`, aspect by aspect, in source order. -/
def POSITIVE_KEYWORDS : List (Str × List Str) :=
  [(cs "cost",
    [cs "affordable", cs "good value", cs "reasonable", cs "worth it", cs "roi",
     cs "cost-effective"]),
   (cs "experience",
    [cs "easy", cs "smooth", cs "intuitive", cs "user-friendly", cs "pleasant",
     cs "enjoyable", cs "natural", cs "comfortable", cs "seamless"]),
   (cs "effectiveness",
    [cs "effective", cs "works well", cs "accurate", cs "reliable", cs "great results",
     cs "impressive", cs "powerful", cs "robust"]),
   (cs "features",
    [cs "feature-rich", cs "comprehensive", cs "all-in-one", cs "integrated",
     cs "advanced"])]

/-- JavaScript `\w` (word character) for the `\b` boundaries. -/
def isWordChar (c : Char) : Bool := c.isAlphanum || c = '_'

/-- Wordness of an optional adjacent character (text edges are
non-word). -/
def wordCharB : Option Char → Bool
  | none => false
  | some c => isWordChar c

/-- A `\b` word boundary sits between two positions of opposite
wordness. -/
def boundaryB (a b : Option Char) : Bool := wordCharB a != wordCharB b

/-- One candidate position of `` `\b${kw}\b` ``. -/
def hasWordAt (t w : Str) (i : Nat) : Bool :=
  w.isPrefixOf (t.drop i) &&
  boundaryB (if i = 0 then none else (t.drop (i - 1)).head?) w.head? &&
  boundaryB w.getLast? ((t.drop (i + w.length)).head?)

/-- The `hasWord` helper: case-insensitive whole-word regex test
(`new RegExp('\\b' + escaped + '\\b', 'i')`). -/
def hasWord (t w : Str) : Bool :=
  let tl := toLowerStr t
  let wl := toLowerStr w
  (List.range (tl.length + 1)).any (fun i => hasWordAt tl wl i)

/-- Remove the leftmost match of `/^\S*\s/` (partial word at the left
edge of a context window). -/
def stripLeadingWordSpace (t : Str) : Str :=
  let pre := t.takeWhile (fun c => !isWs c)
  if pre.length < t.length then t.drop (pre.length + 1) else t

/-- Remove the leftmost match of `/\s\S*$/` (partial word at the right
edge of a context window). -/
def stripTrailingSpaceWord (t : Str) : Str :=
  let sufRev := t.reverse.takeWhile (fun c => !isWs c)
  if sufRev.length < t.length then t.take (t.length - sufRev.length - 1) else t

/-- `extractContext`: the window of `windowSize` characters around the
first occurrence of `keyword` at or after `startIndex`, with partial
words cleaned at cut edges and `...` markers added. -/
def extractContext (text keyword : Str) (windowSize startIndex : Nat) : Option Str :=
  match findIdxFrom text keyword startIndex with
  | none => none
  | some index =>
    let start := index - windowSize
    let stop := min text.length (index + keyword.length + windowSize)
    let ctx₀ := (text.drop start).take (stop - start)
    let ctx₁ := if 0 < start then cs "..." ++ stripLeadingWordSpace ctx₀ else ctx₀
    let ctx₂ := if stop < text.length then stripTrailingSpaceWord ctx₁ ++ cs "..." else ctx₁
    some ctx₂

/-- The `while` loop collecting one ±150 context window per occurrence
of the competitor.  The loop advances `searchIndex` past each occurrence;
`fuel = textLower.length + 1` bounds the iteration count for any
non-empty competitor name (for the empty name the source loops forever;
the model truncates instead). -/
def collectContexts (textLower compLower : Str) : Nat → Nat → List Str
  | 0, _ => []
  | fuel + 1, searchIndex =>
    match findIdxFrom textLower compLower searchIndex with
    | none => []
    | some index =>
      (extractContext textLower compLower 150 index).toList ++
      collectContexts textLower compLower fuel (index + compLower.length)

/-- `contexts.join(' ')`: the combined mention-context string. -/
def combinedContext (textLower compLower : Str) : Str :=
  List.intercalate (cs " ")
    (collectContexts textLower compLower (textLower.length + 1) 0)

/-- One `for (const [aspect, keywords] of Object.entries(...))` pass:
aspects whose keyword list has at least one whole-word match in the
combined context, each recording all matched keywords and a quote
around the first one. -/
def matchAspects (s : Sentiment) (table : List (Str × List Str))
    (ctx textLower : Str) : List SentimentAspect :=
  table.filterMap (fun pr =>
    match pr.2.filter (fun kw => hasWord ctx kw) with
    | [] => none
    | kw₀ :: rest =>
      some { aspect := pr.1, sentiment := s, keywords := kw₀ :: rest,
             quote := extractContext textLower kw₀ 80 0 })

/-- One entry of `COMPETITOR_POSITIONING`. -/
structure CompetitorPositioning where
  negativeAngles : List (Str × Str)
  defaultAngle : Str
  alignaAdvantage : Str
deriving DecidableEq

/-- `COMPETITOR_POSITIONING` (keys and angle strings from the source). -/
def COMPETITOR_POSITIONING : List (Str × CompetitorPositioning) :=
  [(cs "hirevue",
    { negativeAngles :=
        [(cs "cost", cs "Article notes HireVue cost concerns - Aligna offers startup-friendly pricing with transparent costs."),
         (cs "experience", cs "Article mentions HireVue feels impersonal/robotic - Aligna uses live AI conversations that feel more natural than recording videos to a screen."),
         (cs "usability", cs "Article highlights HireVue usability issues - Aligna is phone-first, requiring no app downloads or video setup."),
         (cs "effectiveness", cs "Article questions HireVue accuracy/bias - Aligna focuses on conversational assessment with transparent AI."),
         (cs "limitations", cs "Article notes HireVue limitations - Aligna addresses gaps with real-time voice interaction.")]
      defaultAngle := cs "HireVue mentioned - position Aligna as the live conversation alternative to pre-recorded video screening."
      alignaAdvantage := cs "Live voice conversations vs. one-way video recordings" }),
   (cs "modern hire",
    { negativeAngles :=
        [(cs "cost", cs "Article mentions Modern Hire enterprise pricing - Aligna offers accessible pricing for companies of all sizes."),
         (cs "experience", cs "Article notes Modern Hire candidate experience issues - Aligna's phone-first approach is more accessible globally."),
         (cs "usability", cs "Article highlights Modern Hire complexity - Aligna simplifies with a phone-call-based experience.")]
      defaultAngle := cs "Modern Hire mentioned - highlight Aligna's phone-first accessibility vs. video-heavy platforms."
      alignaAdvantage := cs "Phone accessibility without video/app requirements" }),
   (cs "modernhire",
    { negativeAngles :=
        [(cs "cost", cs "Article mentions ModernHire enterprise pricing - Aligna offers accessible pricing for companies of all sizes."),
         (cs "experience", cs "Article notes ModernHire candidate experience issues - Aligna's phone-first approach is more accessible globally.")]
      defaultAngle := cs "ModernHire mentioned - highlight Aligna's phone-first accessibility vs. video-heavy platforms."
      alignaAdvantage := cs "Phone accessibility without video/app requirements" }),
   (cs "karat",
    { negativeAngles :=
        [(cs "cost", cs "Article notes Karat's high cost for human interviewers - Aligna offers AI-powered screening at a fraction of the cost."),
         (cs "limitations", cs "Article mentions Karat scalability limits - Aligna's AI scales infinitely without human interviewer constraints.")]
      defaultAngle := cs "Karat mentioned - Aligna offers AI-powered screening at scale, complementing or replacing expensive human technical interviews."
      alignaAdvantage := cs "AI-powered scalability vs. human interviewer bottlenecks" }),
   (cs "willo",
    { negativeAngles :=
        [(cs "experience", cs "Article notes Willo's async video anxiety - Aligna's live phone calls feel more natural than recording videos."),
         (cs "limitations", cs "Article mentions Willo feature gaps - Aligna offers real-time conversation with immediate follow-up questions.")]
      defaultAngle := cs "Willo (async video) mentioned - position Aligna as the real-time conversational alternative."
      alignaAdvantage := cs "Real-time conversation vs. pre-recorded responses" }),
   (cs "spark hire",
    { negativeAngles :=
        [(cs "experience", cs "Article mentions Spark Hire video recording stress - Aligna eliminates camera anxiety with phone-based interviews."),
         (cs "usability", cs "Article notes Spark Hire technical setup issues - Aligna only requires a phone call.")]
      defaultAngle := cs "Spark Hire mentioned - position Aligna as the phone-first alternative that eliminates video recording anxiety."
      alignaAdvantage := cs "No video recording required - just a phone call" }),
   (cs "sparkhire",
    { negativeAngles :=
        [(cs "experience", cs "Article mentions SparkHire video recording stress - Aligna eliminates camera anxiety with phone-based interviews.")]
      defaultAngle := cs "SparkHire mentioned - position Aligna as the phone-first alternative that eliminates video recording anxiety."
      alignaAdvantage := cs "No video recording required - just a phone call" }),
   (cs "myinterview",
    { negativeAngles :=
        [(cs "experience", cs "Article notes MyInterview async limitations - Aligna offers real-time AI conversation.")]
      defaultAngle := cs "MyInterview mentioned - highlight Aligna's live conversation vs. async video."
      alignaAdvantage := cs "Live AI conversation vs. recorded responses" }),
   (cs "vidcruiter",
    { negativeAngles :=
        [(cs "usability", cs "Article mentions VidCruiter complexity - Aligna simplifies with phone-first experience.")]
      defaultAngle := cs "VidCruiter mentioned - position Aligna as a simpler, phone-first alternative."
      alignaAdvantage := cs "Simplified phone experience vs. video platform complexity" }),
   (cs "hireflix",
    { negativeAngles :=
        [(cs "experience", cs "Article notes Hireflix one-way video limitations - Aligna offers two-way AI conversation.")]
      defaultAngle := cs "Hireflix mentioned - highlight Aligna's interactive conversation vs. one-way video."
      alignaAdvantage := cs "Two-way conversation vs. one-way video" })]

/-- `normalizeCompetitorName`: lower-case and remove all whitespace. -/
def normalizeCompetitorName (name : Str) : Str :=
  (toLowerStr name).filter (fun c => !isWs c)

/-- `analyzeCompetitorSentiment`. -/
def analyzeCompetitorSentiment (text competitor : Str) : CompetitorSentimentAnalysis :=
  let compLower := toLowerStr competitor
  let textLower := toLowerStr text
  let mentioned := containsSub textLower compLower
  if mentioned then
    let ctx := combinedContext textLower compLower
    let negAspects := matchAspects .negative NEGATIVE_KEYWORDS ctx textLower
    let posAspects := matchAspects .positive POSITIVE_KEYWORDS ctx textLower
    let aspects := negAspects ++ posAspects
    let negativeKeywordCount :=
      ((aspects.filter (fun a => decide (a.sentiment = Sentiment.negative))).map
        (fun a => a.keywords.length)).sum
    let positiveKeywordCount :=
      ((aspects.filter (fun a => decide (a.sentiment = Sentiment.positive))).map
        (fun a => a.keywords.length)).sum
    let sentiment : Sentiment :=
      if 2 ≤ negativeKeywordCount ∧ 2 ≤ positiveKeywordCount then .mixed
      else if positiveKeywordCount < negativeKeywordCount then .negative
      else if negativeKeywordCount < positiveKeywordCount then .positive
      else if 0 < negativeKeywordCount ∧ 0 < positiveKeywordCount then .mixed
      else .neutral
    let positioning :=
      ((alookup COMPETITOR_POSITIONING compLower).orElse
        (fun _ => alookup COMPETITOR_POSITIONING (normalizeCompetitorName competitor))).getD
        { negativeAngles := []
          defaultAngle :=
            competitor ++ cs " mentioned - position Aligna as a voice-first alternative."
          alignaAdvantage := cs "Live voice AI vs. traditional video screening" }
    let negativeAspects := aspects.filter (fun a => decide (a.sentiment = Sentiment.negative))
    let positioningAngle :=
      match negativeAspects with
      | [] => positioning.defaultAngle
      | firstNeg :: _ =>
        match alookup positioning.negativeAngles firstNeg.aspect with
        | some specific => specific
        | none => positioning.defaultAngle
    let gapOpportunity :=
      if sentiment = Sentiment.negative then
        cs "Article expresses concerns about " ++ competitor ++ cs " (" ++
          List.intercalate (cs ", ") (negativeAspects.map (fun a => a.aspect)) ++
          cs ") - opportunity to position Aligna as solving these pain points."
      else if sentiment = Sentiment.mixed then
        cs "Article has mixed views on " ++ competitor ++
          cs " - opportunity to highlight Aligna's advantages in areas where " ++
          competitor ++ cs " falls short."
      else
        competitor ++
          cs " mentioned without strong sentiment - opportunity to introduce Aligna as a differentiated alternative."
    { competitor := competitor
      mentioned := true
      sentiment := sentiment
      aspects := aspects
      gapOpportunity := gapOpportunity
      positioningAngle := positioningAngle
      confidence := if 0 < aspects.length then .high else .medium }
  else
    { competitor := competitor, mentioned := false, sentiment := .neutral,
      aspects := [], gapOpportunity := [], positioningAngle := [],
      confidence := .low }

/-- `ArticleCompetitorAnalysis`. -/
structure ArticleCompetitorAnalysis where
  hasCompetitorMentions : Bool
  competitors : List CompetitorSentimentAnalysis
  overallOpportunity : Str
  suggestedAngles : List Str
  bestAngle : Option Str
deriving DecidableEq

/-- `sentimentPriority`: negative 0 < mixed 1 < neutral 2 < positive 3. -/
def sentimentPriority : Sentiment → Nat
  | .negative => 0
  | .mixed => 1
  | .neutral => 2
  | .positive => 3

/-- Stable insertion used to model `competitors.sort((a, b) =>
priority[a] - priority[b])` (V8's sort is stable): the new element goes
after every already-placed element of equal or lower priority value. -/
def insertByPriority (c : CompetitorSentimentAnalysis) :
    List CompetitorSentimentAnalysis → List CompetitorSentimentAnalysis
  | [] => [c]
  | d :: t =>
    if sentimentPriority d.sentiment ≤ sentimentPriority c.sentiment then
      d :: insertByPriority c t
    else c :: d :: t

/-- Stable sort by sentiment priority (left-to-right insertion). -/
def sortByPriority (l : List CompetitorSentimentAnalysis) :
    List CompetitorSentimentAnalysis :=
  l.foldl (fun acc c => insertByPriority c acc) []

/-- `analyzeArticleCompetitors`: analyze each configured competitor,
keep only those actually mentioned, sort by sentiment priority, derive
angles and the overall opportunity text. -/
def analyzeArticleCompetitors (article : Article) : ArticleCompetitorAnalysis :=
  let text := article.fullText
  let competitors :=
    (ALIGNA_competitors.map (fun comp => analyzeCompetitorSentiment text comp)).filter
      (fun a => a.mentioned)
  let sorted := sortByPriority competitors
  let suggestedAngles := sorted.map (fun c => c.positioningAngle)
  let negativeCompetitors := sorted.filter (fun c => decide (c.sentiment = Sentiment.negative))
  let mixedCompetitors := sorted.filter (fun c => decide (c.sentiment = Sentiment.mixed))
  let overallOpportunity :=
    if ¬ negativeCompetitors.isEmpty then
      cs "🔥 High opportunity: Article expresses negative sentiment about " ++
        List.intercalate (cs ", ") (negativeCompetitors.map (fun c => c.competitor)) ++
        cs ". Perfect positioning opportunity for Aligna."
    else if ¬ mixedCompetitors.isEmpty then
      cs "✅ Good opportunity: Article has mixed views on " ++
        List.intercalate (cs ", ") (mixedCompetitors.map (fun c => c.competitor)) ++
        cs ". Highlight Aligna's strengths in weak areas."
    else if ¬ sorted.isEmpty then
      cs "🤔 Moderate opportunity: Competitors mentioned without strong sentiment. Introduce Aligna as a differentiated option."
    else
      cs "No competitors mentioned - focus on general voice AI benefits."
  { hasCompetitorMentions := !sorted.isEmpty
    competitors := sorted
    overallOpportunity := overallOpportunity
    suggestedAngles := suggestedAngles
    bestAngle := suggestedAngles.head? }

/-! ## Claims C5 and C10 -/

/-- Taken from the spec's wording (spec side, for refinement): the
sentiment decision rule as a function of the total matched negative (`n`)
and positive (`p`) keyword counts. -/
def sentimentRuleSpec (n p : Nat) : Sentiment :=
  if 2 ≤ n ∧ 2 ≤ p then .mixed
  else if p < n then .negative
  else if n < p then .positive
  else if 0 < n ∧ 0 < p then .mixed
  else .neutral

/-- N of the claim: total matched negative keywords across all aspects
in the combined mention-context windows. -/
def specNegCount (text comp : Str) : Nat :=
  (NEGATIVE_KEYWORDS.map (fun pr =>
    (pr.2.filter (fun kw =>
      hasWord (combinedContext (toLowerStr text) (toLowerStr comp)) kw)).length)).sum

/-- P of the claim: total matched positive keywords across all aspects
in the combined mention-context windows. -/
def specPosCount (text comp : Str) : Nat :=
  (POSITIVE_KEYWORDS.map (fun pr =>
    (pr.2.filter (fun kw =>
      hasWord (combinedContext (toLowerStr text) (toLowerStr comp)) kw)).length)).sum

lemma containsSub_exists (hay needle : Str) :
    containsSub hay needle = true ↔ ∃ i, needle.isPrefixOf (hay.drop i) = true := by
  induction hay with
  | nil =>
    cases needle <;> simp [containsSub, List.isPrefixOf]
  | cons c t ih =>
    simp only [containsSub, Bool.or_eq_true, ih]
    constructor
    · rintro (h | ⟨j, hj⟩)
      · exact ⟨0, h⟩
      · exact ⟨j + 1, hj⟩
    · rintro ⟨i, hi⟩
      cases i with
      | zero => exact Or.inl hi
      | succ j => exact Or.inr ⟨j, hi⟩

lemma findIdxFrom_eq_none (hay needle : Str)
    (h : containsSub hay needle = false) : findIdxFrom hay needle 0 = none := by
  have hno : ¬ ∃ i, needle.isPrefixOf (hay.drop i) = true := by
    rw [← containsSub_exists, h]
    simp
  unfold findIdxFrom
  rw [List.head?_eq_none_iff, List.filter_eq_nil]
  intro i _
  simp only [Bool.and_eq_true, decide_eq_true_eq, not_and]
  intro _ hpre
  exact hno ⟨i, hpre⟩

lemma combinedContext_of_not_mentioned (tl cl : Str)
    (h : containsSub tl cl = false) : combinedContext tl cl = [] := by
  unfold combinedContext
  rw [show tl.length + 1 = Nat.succ tl.length from rfl]
  rw [show collectContexts tl cl (Nat.succ tl.length) 0 =
    (match findIdxFrom tl cl 0 with
     | none => []
     | some index =>
       (extractContext tl cl 150 index).toList ++
         collectContexts tl cl tl.length (index + cl.length)) from rfl]
  rw [findIdxFrom_eq_none tl cl h]
  rfl

lemma matchAspects_sentiment (s : Sentiment) (table : List (Str × List Str))
    (ctx tl : Str) : ∀ a ∈ matchAspects s table ctx tl, a.sentiment = s := by
  intro a ha
  unfold matchAspects at ha
  obtain ⟨pr, _, hsome⟩ := List.mem_filterMap.mp ha
  cases hf : pr.2.filter (fun kw => hasWord ctx kw) with
  | nil => rw [hf] at hsome; simp at hsome
  | cons k r =>
    rw [hf] at hsome
    simp only [Option.some.injEq] at hsome
    rw [← hsome]

lemma matchAspects_filter_self (s : Sentiment) (table : List (Str × List Str))
    (ctx tl : Str) :
    (matchAspects s table ctx tl).filter (fun a => decide (a.sentiment = s)) =
      matchAspects s table ctx tl := by
  rw [List.filter_eq_self]
  intro a ha
  simp [matchAspects_sentiment s table ctx tl a ha]

lemma matchAspects_filter_ne (s s' : Sentiment) (hne : s ≠ s')
    (table : List (Str × List Str)) (ctx tl : Str) :
    (matchAspects s table ctx tl).filter (fun a => decide (a.sentiment = s')) = [] := by
  rw [List.filter_eq_nil]
  intro a ha
  simp [matchAspects_sentiment s table ctx tl a ha, hne]

lemma matchAspects_keyword_sum (s : Sentiment) (table : List (Str × List Str))
    (ctx tl : Str) :
    ((matchAspects s table ctx tl).map (fun a => a.keywords.length)).sum =
      (table.map (fun pr => (pr.2.filter (fun kw => hasWord ctx kw)).length)).sum := by
  induction table with
  | nil => rfl
  | cons pr t ih =>
    cases hf : pr.2.filter (fun kw => hasWord ctx kw) with
    | nil =>
      simp only [matchAspects, List.filterMap_cons, hf, List.map_cons, List.sum_cons]
      rw [show (List.filterMap _ t : List SentimentAspect) =
        matchAspects s t ctx tl from rfl, ih]
      simp
    | cons k r =>
      simp only [matchAspects, List.filterMap_cons, hf, List.map_cons, List.sum_cons]
      rw [show (List.filterMap _ t : List SentimentAspect) =
        matchAspects s t ctx tl from rfl, ih]

lemma analyze_sentiment_eq (text comp : Str) :
    (analyzeCompetitorSentiment text comp).sentiment =
      sentimentRuleSpec (specNegCount text comp) (specPosCount text comp) := by
  by_cases hm : containsSub (toLowerStr text) (toLowerStr comp) = true
  · have hN :
        (((matchAspects .negative NEGATIVE_KEYWORDS
            (combinedContext (toLowerStr text) (toLowerStr comp)) (toLowerStr text) ++
          matchAspects .positive POSITIVE_KEYWORDS
            (combinedContext (toLowerStr text) (toLowerStr comp)) (toLowerStr text)).filter
          (fun a => decide (a.sentiment = Sentiment.negative))).map
            (fun a => a.keywords.length)).sum = specNegCount text comp := by
      rw [List.filter_append, matchAspects_filter_self,
        matchAspects_filter_ne .positive .negative (by decide), List.append_nil,
        matchAspects_keyword_sum]
      rfl
    have hP :
        (((matchAspects .negative NEGATIVE_KEYWORDS
            (combinedContext (toLowerStr text) (toLowerStr comp)) (toLowerStr text) ++
          matchAspects .positive POSITIVE_KEYWORDS
            (combinedContext (toLowerStr text) (toLowerStr comp)) (toLowerStr text)).filter
          (fun a => decide (a.sentiment = Sentiment.positive))).map
            (fun a => a.keywords.length)).sum = specPosCount text comp := by
      rw [List.filter_append, matchAspects_filter_self,
        matchAspects_filter_ne .negative .positive (by decide), List.nil_append,
        matchAspects_keyword_sum]
      rfl
    unfold analyzeCompetitorSentiment
    rw [if_pos hm]
    dsimp only
    rw [hN, hP]
    rfl
  · rw [Bool.not_eq_true] at hm
    have hc := combinedContext_of_not_mentioned (toLowerStr text) (toLowerStr comp) hm
    have hn : specNegCount text comp = 0 := by
      unfold specNegCount
      rw [hc]
      decide
    have hp : specPosCount text comp = 0 := by
      unfold specPosCount
      rw [hc]
      decide
    unfold analyzeCompetitorSentiment
    rw [if_neg (by simp [hm])]
    rw [hn, hp]
    rfl

/-- **C5.** The classified sentiment is exactly the keyword-count rule of
the spec — `mixed` when N ≥ 2 and P ≥ 2, else `negative` when N > P,
else `positive` when P > N, else `mixed` on a 1-and-1 tie, else
`neutral` — where N / P are the total matched negative / positive
keywords in the combined mention-context windows.  In particular one
negative plus one positive keyword yields `mixed`, and no matches yield
`neutral`. -/
theorem sentiment_keyword_count_rule :
    (∀ text comp : Str,
      (analyzeCompetitorSentiment text comp).sentiment =
        sentimentRuleSpec (specNegCount text comp) (specPosCount text comp)) ∧
    (analyzeCompetitorSentiment (cs "hirevue is expensive but affordable")
      (cs "hirevue")).sentiment = Sentiment.mixed ∧
    (analyzeCompetitorSentiment (cs "hirevue is fine") (cs "hirevue")).sentiment =
      Sentiment.neutral := by
  refine ⟨analyze_sentiment_eq, ?_, ?_⟩
  · decide
  · decide

lemma confidence_if_len (l : List SentimentAspect) :
    (if 0 < l.length then Confidence.high else Confidence.medium) =
      (if l = [] then Confidence.medium else Confidence.high) := by
  cases l <;> simp

lemma mem_insertByPriority (x c : CompetitorSentimentAnalysis) :
    ∀ l, x ∈ insertByPriority c l ↔ x = c ∨ x ∈ l := by
  intro l
  induction l with
  | nil => simp [insertByPriority]
  | cons d t ih =>
    unfold insertByPriority
    split_ifs with h
    · simp only [List.mem_cons, ih]
      tauto
    · simp only [List.mem_cons]

lemma mem_sortByPriority (x : CompetitorSentimentAnalysis) :
    ∀ (l acc : List CompetitorSentimentAnalysis),
      x ∈ l.foldl (fun acc c => insertByPriority c acc) acc ↔ x ∈ l ∨ x ∈ acc := by
  intro l
  induction l with
  | nil => simp
  | cons c t ih =>
    intro acc
    rw [List.foldl_cons, ih (insertByPriority c acc), mem_insertByPriority]
    simp only [List.mem_cons]
    tauto

lemma analyze_confidence_eq (text comp : Str) :
    (analyzeCompetitorSentiment text comp).confidence =
      (if (analyzeCompetitorSentiment text comp).mentioned then
        (if (analyzeCompetitorSentiment text comp).aspects = [] then Confidence.medium
         else Confidence.high)
       else Confidence.low) := by
  by_cases hm : containsSub (toLowerStr text) (toLowerStr comp) = true
  · unfold analyzeCompetitorSentiment
    rw [if_pos hm]
    exact confidence_if_len _
  · unfold analyzeCompetitorSentiment
    rw [if_neg (by simp at hm ⊢; exact hm)]
    rfl

/-- **C10.** For a mentioned competitor the confidence is `high` exactly
when at least one sentiment aspect matched and `medium` otherwise;
`low` is produced only for competitors not mentioned at all, and every
entry of the article-level competitor list is a mentioned one (so none
carries `low`). -/
theorem confidence_levels_and_mention_filter :
    (∀ text comp : Str,
      (analyzeCompetitorSentiment text comp).confidence =
        (if (analyzeCompetitorSentiment text comp).mentioned then
          (if (analyzeCompetitorSentiment text comp).aspects = [] then Confidence.medium
           else Confidence.high)
         else Confidence.low)) ∧
    (∀ article : Article,
      ((analyzeArticleCompetitors article).competitors.all (fun a => a.mentioned)) = true ∧
      ((analyzeArticleCompetitors article).competitors.all
        (fun a => decide (a.confidence ≠ Confidence.low))) = true) := by
  refine ⟨analyze_confidence_eq, ?_⟩
  intro article
  have hmem : ∀ a, a ∈ (analyzeArticleCompetitors article).competitors →
      a.mentioned = true ∧
      ∃ comp, analyzeCompetitorSentiment article.fullText comp = a := by
    intro a ha
    unfold analyzeArticleCompetitors at ha
    dsimp only at ha
    rw [show sortByPriority _ =
      List.foldl (fun acc c => insertByPriority c acc) []
        ((List.map (fun comp => analyzeCompetitorSentiment article.fullText comp)
          ALIGNA_competitors).filter (fun a => a.mentioned)) from rfl] at ha
    have hfil := (mem_sortByPriority a _ []).mp ha
    simp only [List.mem_singleton, or_false] at hfil
    rcases hfil with hfil | hfil
    · obtain ⟨hmap, hp⟩ := List.mem_filter.mp hfil
      obtain ⟨comp, _, hcomp⟩ := List.mem_map.mp hmap
      exact ⟨hp, comp, hcomp⟩
    · simp at hfil
  constructor
  · rw [List.all_eq_true]
    intro a ha
    exact (hmem a ha).1
  · rw [List.all_eq_true]
    intro a ha
    obtain ⟨hment, comp, hcomp⟩ := hmem a ha
    have h1 := analyze_confidence_eq article.fullText comp
    rw [hcomp, hment, if_pos rfl] at h1
    rw [decide_eq_true_eq, h1]
    split_ifs <;> decide

/-! ## The EthicalScraper fetch path (`src/search/scraper.ts`)

State-passing model of `EthicalScraper.fetch`.  Network interactions are
oracles: `robotsAllowed` is the outcome of `checkRobotsTxt` for this URL
(the robots subsystem touches the rate-limit map only through the
crawl-delay installation, modelled by `applyRobotsCrawlDelay` with the
fetched `Crawl-delay` as `robotsCrawlDelay`; `none` covers a cached,
absent or delay-free robots file), and `pages` is the stream of
responses the page `GET` would produce, one per attempt (the 429-retry
recursion consumes it; an exhausted stream is a modelling artifact
reported as `noResponse`).  `Date.now()` at entry is `now`; the
timestamp taken after the rate-limit sleep is `now₂`. -/

/-- The two rate-limit constants from `src/config`. -/
structure ScraperConfig where
  maxRequestsPerHour : Nat
  minDelayBetweenRequests : Int
deriving DecidableEq

/-- `RateLimitEntry` (plus the `customDelay` field the robots check
attaches to the entry object). -/
structure RateLimitEntry where
  lastRequest : Int
  requestCount : Nat
  hourStart : Int
  customDelay : Option Int
deriving DecidableEq

/-- The `rateLimits: Map<string, RateLimitEntry>` as an association
list. -/
abbrev RateLimits := List (Str × RateLimitEntry)

/-- `Map.set`: replace the first binding of `key` or append it. -/
def aset {α : Type} : List (Str × α) → Str → α → List (Str × α)
  | [], key, v => [(key, v)]
  | (k, w) :: t, key, v =>
    if k = key then (k, v) :: t else (k, w) :: aset t key v

/-- One `htmlCache` entry: `{ content, timestamp }`. -/
structure CacheEnt where
  content : Str
  timestamp : Int
deriving DecidableEq

/-- The scraper's mutable state (rate-limit map and HTML cache; the
robots-ruleset cache is abstracted into the robots oracle). -/
structure ScraperState where
  rateLimits : RateLimits
  htmlCache : List (Str × CacheEnt)
deriving DecidableEq

/-- `CACHE_TTL_MS = 24 * 60 * 60 * 1000`. -/
def CACHE_TTL_MS : Int := 24 * 60 * 60 * 1000

/-- Outcome of `applyRateLimit`: proceed after sleeping `sleptMs`, or
throw the hourly-limit error. -/
inductive RLResult
  | ok (sleptMs : Int)
  | rateLimited
deriving DecidableEq

/-- `applyRateLimit`: create the entry if missing, reset the hourly
window if stale, throw when the hourly ceiling is reached, otherwise
sleep out the per-domain delay and record the request.  (JS reads
`(entry as any).customDelay || config.minDelayBetweenRequests`; the
`Option.getD` mirrors it — a zero custom delay cannot arise because the
robots check only installs delays strictly above the configured
minimum.) -/
def applyRateLimit (cfg : ScraperConfig) (now now₂ : Int)
    (rl : RateLimits) (domain : Str) : RateLimits × RLResult :=
  let e₀ := (alookup rl domain).getD
    { lastRequest := 0, requestCount := 0, hourStart := now, customDelay := none }
  let e₁ :=
    if 3600000 < now - e₀.hourStart then
      { e₀ with requestCount := 0, hourStart := now }
    else e₀
  if cfg.maxRequestsPerHour ≤ e₁.requestCount then
    (aset rl domain e₁, .rateLimited)
  else
    let delay := e₁.customDelay.getD cfg.minDelayBetweenRequests
    let slept :=
      if now - e₁.lastRequest < delay then delay - (now - e₁.lastRequest) else 0
    (aset rl domain
      { e₁ with lastRequest := now₂, requestCount := e₁.requestCount + 1 }, .ok slept)

/-- The crawl-delay installation inside `checkRobotsTxt` (lines
103-110): when robots returned a `Crawl-delay` whose milliseconds exceed
the configured minimum and the domain already has a rate-limit entry,
store it as that entry's custom delay. -/
def applyRobotsCrawlDelay (cfg : ScraperConfig) (crawlDelay : Option Int)
    (rl : RateLimits) (domain : Str) : RateLimits :=
  match crawlDelay with
  | none => rl
  | some c =>
    if cfg.minDelayBetweenRequests < c * 1000 then
      match alookup rl domain with
      | some e => aset rl domain { e with customDelay := some (c * 1000) }
      | none => rl
    else rl

/-- `handleRateLimit`: exponential backoff keyed to the domain's
request count, bounded multiplier (`5000 * 2^(min count 5)`). -/
def handleRateLimitSleep (rl : RateLimits) (domain : Str) : Int :=
  match alookup rl domain with
  | some e => 5000 * 2 ^ (min e.requestCount 5)
  | none => 0

/-- One page-request outcome. -/
inductive PageResp
  | ok (body : Str)
  | err429
  | errStatus (code : Nat)
deriving DecidableEq

/-- Errors `fetch` can surface. -/
inductive FetchErr
  | robotsDisallowed
  | rateLimited
  | http (code : Nat)
  | noResponse
deriving DecidableEq

instance {ε α : Type} [DecidableEq ε] [DecidableEq α] :
    DecidableEq (Except ε α) := fun a b =>
  match a, b with
  | .error x, .error y =>
    if h : x = y then isTrue (by rw [h])
    else isFalse (fun hh => h (by cases hh; rfl))
  | .ok x, .ok y =>
    if h : x = y then isTrue (by rw [h])
    else isFalse (fun hh => h (by cases hh; rfl))
  | .error _, .ok _ => isFalse (fun hh => by cases hh)
  | .ok _, .error _ => isFalse (fun hh => by cases hh)

/-- What a `fetch` call produces: the result (body or error), the state
afterwards, the number of page `GET`s performed, and the total
milliseconds spent sleeping. -/
structure FetchOut where
  result : Except FetchErr Str
  state : ScraperState
  pageRequests : Nat
  sleptMs : Int
deriving DecidableEq

/-- One attempt of `EthicalScraper.fetch`: robots check, cache check,
rate limiting, page request.  `page?` is the response the page `GET`
would produce (`none`: the oracle stream is exhausted).  `Sum.inl` is a
finished call; `Sum.inr (st₂, slept)` is a 429 — back off and retry from
state `st₂` after `slept` milliseconds (delay sleep + backoff). -/
def fetchStep (cfg : ScraperConfig) (robotsAllowed : Bool)
    (robotsCrawlDelay : Option Int) (now now₂ : Int) (url domain : Str)
    (skipRobotsCheck : Bool) (st : ScraperState) (page? : Option PageResp) :
    FetchOut ⊕ (ScraperState × Int) :=
  let rl₁ :=
    if skipRobotsCheck then st.rateLimits
    else applyRobotsCrawlDelay cfg robotsCrawlDelay st.rateLimits domain
  let st₁ : ScraperState := { st with rateLimits := rl₁ }
  if !skipRobotsCheck && !robotsAllowed then
    .inl { result := .error .robotsDisallowed, state := st₁, pageRequests := 0,
           sleptMs := 0 }
  else
    match
      (match alookup st₁.htmlCache url with
       | some ce =>
         if now - ce.timestamp < CACHE_TTL_MS then some ce.content else none
       | none => none) with
    | some content =>
      .inl { result := .ok content, state := st₁, pageRequests := 0, sleptMs := 0 }
    | none =>
      match applyRateLimit cfg now now₂ rl₁ domain with
      | (rl₂, .rateLimited) =>
        .inl { result := .error .rateLimited, state := { st₁ with rateLimits := rl₂ },
               pageRequests := 0, sleptMs := 0 }
      | (rl₂, .ok slept) =>
        let st₂ : ScraperState := { st₁ with rateLimits := rl₂ }
        match page? with
        | none =>
          .inl { result := .error .noResponse, state := st₂, pageRequests := 1,
                 sleptMs := slept }
        | some (.ok body) =>
          .inl { result := .ok body,
                 state := { st₂ with
                   htmlCache := aset st₂.htmlCache url
                     { content := body, timestamp := now₂ } },
                 pageRequests := 1, sleptMs := slept }
        | some (.errStatus code) =>
          .inl { result := .error (.http code), state := st₂, pageRequests := 1,
                 sleptMs := slept }
        | some .err429 =>
          .inr (st₂, slept + handleRateLimitSleep rl₂ domain)

/-- `EthicalScraper.fetch`: run attempts against the response stream;
a 429 retries the same request with the rest of the stream (the source
recursion `return this.fetch(url, skipRobotsCheck)`), accumulating page
requests and sleep time. -/
def fetchModel (cfg : ScraperConfig) (robotsAllowed : Bool)
    (robotsCrawlDelay : Option Int) (now now₂ : Int) (url domain : Str)
    (skipRobotsCheck : Bool) : List PageResp → ScraperState → FetchOut
  | [], st =>
    match fetchStep cfg robotsAllowed robotsCrawlDelay now now₂ url domain
        skipRobotsCheck st none with
    | .inl out => out
    | .inr (st₂, slept) =>
      { result := .error .noResponse, state := st₂, pageRequests := 1, sleptMs := slept }
  | p :: rest, st =>
    match fetchStep cfg robotsAllowed robotsCrawlDelay now now₂ url domain
        skipRobotsCheck st (some p) with
    | .inl out => out
    | .inr (st₂, slept) =>
      let r := fetchModel cfg robotsAllowed robotsCrawlDelay now now₂ url domain
        skipRobotsCheck rest st₂
      { result := r.result, state := r.state, pageRequests := r.pageRequests + 1,
        sleptMs := r.sleptMs + slept }

/-! ## Claims C7 and C8 -/

/-- The rate-limiting fields of an entry named by the claims:
last-request timestamp, hourly request count, hour-window start. -/
def rlProj (e : RateLimitEntry) : Int × Nat × Int :=
  (e.lastRequest, e.requestCount, e.hourStart)

lemma alookup_aset {α : Type} (l : List (Str × α)) (k : Str) (v : α) (d : Str) :
    alookup (aset l k v) d = if k = d then some v else alookup l d := by
  induction l with
  | nil =>
    by_cases hd : k = d <;> simp [aset, alookup, hd]
  | cons p t ih =>
    obtain ⟨k', w⟩ := p
    by_cases h : k' = k
    · subst h
      simp only [aset, if_pos rfl, alookup]
      by_cases hd : k' = d <;> simp [hd]
    · simp only [aset, if_neg h, alookup]
      by_cases hd : k' = d
      · subst hd
        have hkd : ¬ k = k' := fun hk => h hk.symm
        simp [hkd]
      · simp [hd, ih]

lemma alookup_applyRobotsCrawlDelay (cfg : ScraperConfig) (cd : Option Int)
    (rl : RateLimits) (domain d : Str) :
    (alookup (applyRobotsCrawlDelay cfg cd rl domain) d).map rlProj =
      (alookup rl d).map rlProj := by
  unfold applyRobotsCrawlDelay
  cases cd with
  | none => rfl
  | some c =>
    dsimp only
    split_ifs with h
    · cases he : alookup rl domain with
      | none => rfl
      | some e =>
        rw [alookup_aset]
        by_cases hd : domain = d
        · subst hd
          rw [if_pos rfl, he]
          rfl
        · rw [if_neg hd]
    · rfl

lemma alookup_robotsStep (cfg : ScraperConfig) (rcd : Option Int)
    (st : ScraperState) (domain : Str) (skip : Bool) (d : Str) :
    (alookup (if skip = true then st.rateLimits
      else applyRobotsCrawlDelay cfg rcd st.rateLimits domain) d).map rlProj =
      (alookup st.rateLimits d).map rlProj := by
  cases skip
  · simp [alookup_applyRobotsCrawlDelay]
  · simp

/-- A concrete state whose cache holds a fresh body for the URL. -/
def wStateC8 : ScraperState :=
  { rateLimits := []
    htmlCache := [(cs "https://x.com/a", { content := cs "cached body", timestamp := 0 })] }

/-- **C8 counterexample.** With the URL freshly cached but robots.txt
disallowing it (and the robots check not skipped), `fetch` throws the
robots error instead of returning the cached body: the robots check runs
before the cache lookup. -/
theorem fetch_cache_hit_counterexample :
    alookup wStateC8.htmlCache (cs "https://x.com/a") =
      some { content := cs "cached body", timestamp := 0 } ∧
    (1000 : Int) - (0 : Int) < CACHE_TTL_MS ∧
    (fetchModel ⟨100, 2000⟩ false none 1000 1000 (cs "https://x.com/a") (cs "x.com")
        false [] wStateC8).result = Except.error FetchErr.robotsDisallowed := by
  decide

/-- **C8 (amended).** Provided the robots check is skipped or allows the
URL, a fetch of a URL cached less than 24 hours ago returns the cached
body, performs no page request, sleeps not at all, and leaves every
domain's `lastRequest`, `requestCount` and `hourStart` unchanged. -/
theorem fetch_cache_hit_frame (cfg : ScraperConfig) (ra : Bool) (rcd : Option Int)
    (now now₂ : Int) (url domain : Str) (skip : Bool) (pages : List PageResp)
    (st : ScraperState) (ce : CacheEnt)
    (hce : alookup st.htmlCache url = some ce)
    (hfresh : now - ce.timestamp < CACHE_TTL_MS)
    (hrobots : skip = true ∨ ra = true) :
    (fetchModel cfg ra rcd now now₂ url domain skip pages st).result = .ok ce.content ∧
    (fetchModel cfg ra rcd now now₂ url domain skip pages st).pageRequests = 0 ∧
    (fetchModel cfg ra rcd now now₂ url domain skip pages st).sleptMs = 0 ∧
    ∀ d, (alookup (fetchModel cfg ra rcd now now₂ url domain skip pages
        st).state.rateLimits d).map rlProj =
      (alookup st.rateLimits d).map rlProj := by
  have hstep : ∀ page?, fetchStep cfg ra rcd now now₂ url domain skip st page? =
      Sum.inl
        { result := .ok ce.content,
          state := { st with rateLimits := (if skip = true then st.rateLimits
            else applyRobotsCrawlDelay cfg rcd st.rateLimits domain) },
          pageRequests := 0, sleptMs := 0 } := by
    intro page?
    unfold fetchStep
    rw [if_neg (show ¬ ((!skip && !ra) = true) by
      rcases hrobots with h | h <;> simp [h])]
    dsimp only
    rw [hce]
    dsimp only
    rw [if_pos hfresh]
  have hout : fetchModel cfg ra rcd now now₂ url domain skip pages st =
      { result := .ok ce.content,
        state := { st with rateLimits := (if skip = true then st.rateLimits
          else applyRobotsCrawlDelay cfg rcd st.rateLimits domain) },
        pageRequests := 0, sleptMs := 0 } := by
    cases pages with
    | nil => rw [fetchModel, hstep none]
    | cons p rest => rw [fetchModel, hstep (some p)]
  rw [hout]
  refine ⟨rfl, rfl, rfl, ?_⟩
  intro d
  exact alookup_robotsStep cfg rcd st domain skip d

/-- A concrete state with the domain at its hourly ceiling. -/
def wStateC7 : ScraperState :=
  { rateLimits := [(cs "x.com",
      { lastRequest := 500, requestCount := 100, hourStart := 0, customDelay := none })]
    htmlCache := [] }

/-- **C7 counterexample.** With the domain at its hourly ceiling inside
the current hour window and the URL not cached, a fetch whose robots
check disallows the URL fails with the robots error, not the rate-limit
error: the claim's "fails with a rate-limit error" does not hold for
every such fetch. -/
theorem fetch_ceiling_counterexample :
    alookup wStateC7.htmlCache (cs "https://x.com/a") = none ∧
    alookup wStateC7.rateLimits (cs "x.com") =
      some { lastRequest := 500, requestCount := 100, hourStart := 0, customDelay := none } ∧
    (⟨100, 2000⟩ : ScraperConfig).maxRequestsPerHour ≤ 100 ∧
    (1000 : Int) - (0 : Int) ≤ 3600000 ∧
    (fetchModel ⟨100, 2000⟩ false none 1000 1000 (cs "https://x.com/a") (cs "x.com")
        false [] wStateC7).result = Except.error FetchErr.robotsDisallowed ∧
    (fetchModel ⟨100, 2000⟩ false none 1000 1000 (cs "https://x.com/a") (cs "x.com")
        false [] wStateC7).result ≠ Except.error FetchErr.rateLimited := by
  decide

/-- **C7 (amended).** Provided the robots check is skipped or allows the
URL: fetching a non-cached URL while the domain's request count within
the current hour window has reached the hourly ceiling fails immediately
with the rate-limit error — no page request, no sleeping — and the
failure is an error value scoped to this request; every domain's
`lastRequest`, `requestCount` and `hourStart` (this domain's included)
are left unchanged. -/
theorem fetch_hourly_ceiling_fails_fast (cfg : ScraperConfig) (ra : Bool)
    (rcd : Option Int) (now now₂ : Int) (url domain : Str) (skip : Bool)
    (pages : List PageResp) (st : ScraperState) (e : RateLimitEntry)
    (hrobots : skip = true ∨ ra = true)
    (hmiss : alookup st.htmlCache url = none)
    (hentry : alookup st.rateLimits domain = some e)
    (hwindow : now - e.hourStart ≤ 3600000)
    (hceil : cfg.maxRequestsPerHour ≤ e.requestCount) :
    (fetchModel cfg ra rcd now now₂ url domain skip pages st).result =
      Except.error FetchErr.rateLimited ∧
    (fetchModel cfg ra rcd now now₂ url domain skip pages st).pageRequests = 0 ∧
    (fetchModel cfg ra rcd now now₂ url domain skip pages st).sleptMs = 0 ∧
    ∀ d, (alookup (fetchModel cfg ra rcd now now₂ url domain skip pages
        st).state.rateLimits d).map rlProj =
      (alookup st.rateLimits d).map rlProj := by
  have hproj := alookup_robotsStep cfg rcd st domain skip
  obtain ⟨e', he', hL, hC, hH⟩ :
      ∃ e', alookup (if skip = true then st.rateLimits
          else applyRobotsCrawlDelay cfg rcd st.rateLimits domain) domain = some e' ∧
        e'.lastRequest = e.lastRequest ∧ e'.requestCount = e.requestCount ∧
        e'.hourStart = e.hourStart := by
    have h := hproj domain
    rw [hentry] at h
    cases hl : alookup (if skip = true then st.rateLimits
        else applyRobotsCrawlDelay cfg rcd st.rateLimits domain) domain with
    | none =>
      rw [hl] at h
      have h' : (none : Option (Int × Nat × Int)) = some (rlProj e) := h
      exact Option.noConfusion h'
    | some e' =>
      rw [hl] at h
      have h' : some (rlProj e') = some (rlProj e) := h
      have h'' := Option.some.inj h'
      simp only [rlProj, Prod.mk.injEq] at h''
      exact ⟨e', rfl, h''.1, h''.2.1, h''.2.2⟩
  have happly : applyRateLimit cfg now now₂ (if skip = true then st.rateLimits
      else applyRobotsCrawlDelay cfg rcd st.rateLimits domain) domain =
      (aset (if skip = true then st.rateLimits
        else applyRobotsCrawlDelay cfg rcd st.rateLimits domain) domain e',
       RLResult.rateLimited) := by
    unfold applyRateLimit
    rw [he']
    simp only [Option.getD]
    rw [if_neg (show ¬ (3600000 < now - e'.hourStart) by rw [hH]; omega)]
    rw [if_pos (show cfg.maxRequestsPerHour ≤ e'.requestCount by
      rw [hC]; exact hceil)]
  have hstep : ∀ page?, fetchStep cfg ra rcd now now₂ url domain skip st page? =
      Sum.inl
        { result := .error .rateLimited,
          state := { st with rateLimits := aset (if skip = true then st.rateLimits
            else applyRobotsCrawlDelay cfg rcd st.rateLimits domain) domain e' },
          pageRequests := 0, sleptMs := 0 } := by
    intro page?
    unfold fetchStep
    rw [if_neg (show ¬ ((!skip && !ra) = true) by
      rcases hrobots with h | h <;> simp [h])]
    dsimp only
    rw [hmiss]
    dsimp only
    rw [happly]
  have hout : fetchModel cfg ra rcd now now₂ url domain skip pages st =
      { result := .error .rateLimited,
        state := { st with rateLimits := aset (if skip = true then st.rateLimits
          else applyRobotsCrawlDelay cfg rcd st.rateLimits domain) domain e' },
        pageRequests := 0, sleptMs := 0 } := by
    cases pages with
    | nil => rw [fetchModel, hstep none]
    | cons p rest => rw [fetchModel, hstep (some p)]
  rw [hout]
  refine ⟨rfl, rfl, rfl, ?_⟩
  intro d
  dsimp only
  rw [alookup_aset]
  by_cases hd : domain = d
  · subst hd
    rw [if_pos rfl, hentry]
    simp [rlProj, hL, hC, hH]
  · rw [if_neg hd]
    exact hproj d

/-- Witness for the amended C8: a concrete cache-hit fetch (robots
check skipped) returns the cached body. -/
theorem fetch_cache_hit_frame_witness :
    (fetchModel ⟨100, 2000⟩ true none 1000 1000 (cs "https://x.com/a") (cs "x.com")
        true [] wStateC8).result = .ok (cs "cached body") :=
  (fetch_cache_hit_frame ⟨100, 2000⟩ true none 1000 1000 (cs "https://x.com/a")
    (cs "x.com") true [] wStateC8 { content := cs "cached body", timestamp := 0 }
    (by decide) (by decide) (Or.inl rfl)).1

/-- Witness for the amended C7: with robots allowing the URL, a fetch of
a non-cached URL at the hourly ceiling fails with the rate-limit error. -/
theorem fetch_hourly_ceiling_fails_fast_witness :
    (fetchModel ⟨100, 2000⟩ true none 1000 1000 (cs "https://x.com/a") (cs "x.com")
        false [] wStateC7).result = Except.error FetchErr.rateLimited :=
  (fetch_hourly_ceiling_fails_fast ⟨100, 2000⟩ true none 1000 1000
    (cs "https://x.com/a") (cs "x.com") false [] wStateC7
    { lastRequest := 500, requestCount := 100, hourStart := 0, customDelay := none }
    (Or.inr rfl) (by decide) (by decide) (by decide) (by decide)).1
